import Mathlib

/-!
Shallow embedding of the Florodoro procedural plant engine
(`src/florodoro/__init__.py`) and verification of its specification.

The engine is a family of plant generators.  Each plant has a current `age`
and a `maxAge` (both normalized to [0,1]), a randomized `generate` step that
freezes shape parameters, and a deterministic `draw` step that emits vector
drawing commands.  Randomness (Python's global `random` module) is modelled
as an explicit stream of reals in [0,1) threaded through the generation
functions; `draw` takes no stream because the source consumes no randomness
at draw time.  Qt painter calls are recorded as a list of `DrawCmd` values;
external Qt computations (`QPainterPath.pointAtPercent`) are recorded
symbolically as commands carrying their arguments.
-/

noncomputable section

open scoped Classical

/-- `smoothen_curve` from the source: `(sin((x - 1/2) * pi) + 1) / 2`. -/
def smoothen_curve (x : ℝ) : ℝ := (Real.sin ((x - 1 / 2) * Real.pi) + 1) / 2

/-- The global pseudo-random source, modelled as a stream of reals.
Python's `random()` yields values in [0,1); validity of a stream is stated
separately as `Rng.valid`. -/
abbrev Rng : Type := ℕ → ℝ

/-- Pop the next random value off the stream. -/
def Rng.next (g : Rng) : ℝ × Rng := (g 0, fun n => g (n + 1))

/-- A stream is valid when every value is in [0,1), as Python guarantees. -/
def Rng.valid (g : Rng) : Prop := ∀ n, 0 ≤ g n ∧ g n < 1

/-- Python `random.random()`. -/
def pyrandom (g : Rng) : ℝ × Rng := Rng.next g

/-- Python `random.uniform(a, b) = a + (b-a) * random()`. -/
def pyuniform (a b : ℝ) (g : Rng) : ℝ × Rng :=
  let p := Rng.next g
  (a + (b - a) * p.1, p.2)

/-- Python `random.randint(a, b)`: an integer in [a, b], both ends included. -/
def pyrandint (a b : ℕ) (g : Rng) : ℕ × Rng :=
  let p := Rng.next g
  (a + Nat.floor (p.1 * ((b : ℝ) - (a : ℝ) + 1)), p.2)

/-- Python `random.choice(l)`: a uniformly chosen element of `l`
(`d` is a default for the never-taken empty/overflow case). -/
def pychoice {α : Type} (l : List α) (d : α) (g : Rng) : α × Rng :=
  let p := Rng.next g
  (l.getD (Nat.floor (p.1 * (l.length : ℝ))) d, p.2)

/-- Python's `round`: round half to even (banker's rounding). -/
def pyround (x : ℝ) : ℤ :=
  if Int.fract x < 1 / 2 then Int.floor x
  else if 1 / 2 < Int.fract x then Int.ceil x
  else if Even (Int.floor x) then Int.floor x else Int.floor x + 1

/-- The stream after one draw.  Every primitive consumes exactly one value,
so `(pyuniform a b g).2`, `(pyrandom g).2`, `(pyrandint a b g).2` and
`(pychoice l d g).2` all reduce to `Rng.tail g`. -/
def Rng.tail (g : Rng) : Rng := fun n => g (n + 1)

/-- An RGB color (models `QColor(r, g, b)`). -/
structure Color where
  r : ℕ
  g : ℕ
  b : ℕ
  deriving DecidableEq

/-- The four pellet silhouettes of `CircularFlower` (the four
`*_pellet` drawing methods). -/
inductive PelletKind
  | circular
  | triangle
  | dip
  | round
  deriving DecidableEq

/-- The concrete plant classes of the source. -/
inductive Variant
  | flower
  | circularFlower
  | tree
  | orangeTree
  | greenTree
  | doubleGreenTree
  deriving DecidableEq

/-- The full attribute set of a plant instance.  The Python classes add
attributes per subclass; here all live in one record tagged by `kind`, and a
variant's functions only touch its own class's fields.  `x` and `y` are the
stem-end coordinates that `Flower._draw` stores on the instance at draw time
(`self.x = ...`, `self.y = ...` in the source). -/
structure PlantState where
  kind : Variant
  age : ℝ
  maxAge : Option ℝ
  age_coefficient : ℝ
  deficit_coefficient : ℝ
  x_coefficient : ℝ
  leafs : List (ℝ × ℝ × ℝ)
  stem_width : ℝ
  x : ℝ
  y : ℝ
  color : Color
  number_of_pellets : ℕ
  center_pellet_smaller_coefficient : ℝ
  pellet_drawing_function : PelletKind
  branches : List (ℝ × ℝ)
  branch_circles : List (ℝ × ℝ)

def green_color : Color := ⟨0, 119, 0⟩

def white_color : Color := ⟨255, 255, 255⟩

def brown_color : Color := ⟨77, 51, 0⟩

def orange_color : Color := ⟨243, 148, 30⟩

/-- `CircularFlower.colors`, the colors of the Florodoro logo. -/
def colors : List Color :=
  [⟨139, 139, 255⟩, ⟨72, 178, 173⟩, ⟨255, 85, 85⟩, ⟨238, 168, 43⟩, ⟨226, 104, 155⟩]

/-- A freshly constructed plant: the class attributes give `age = 0` and
`maxAge = None`; all other attributes do not exist before `generate` runs and
carry arbitrary defaults here. -/
def initState (k : Variant) : PlantState :=
  { kind := k, age := 0, maxAge := none, age_coefficient := 0,
    deficit_coefficient := 0, x_coefficient := 0, leafs := [], stem_width := 0,
    x := 0, y := 0, color := green_color, number_of_pellets := 0,
    center_pellet_smaller_coefficient := 0,
    pellet_drawing_function := PelletKind.circular, branches := [],
    branch_circles := [] }

/-- The all-zeros random stream (a concrete valid stream for witnesses). -/
def zeroRng : Rng := fun _ => 0

/-- The lambda `self.x_position` (captures the local `x_coefficient`). -/
def x_position (s : PlantState) (width : ℝ) : ℝ := width / 9 * s.x_coefficient

/-- The lambda `self.y_position`. -/
def y_position (s : PlantState) (height : ℝ) : ℝ :=
  height / 2.5 * s.deficit_coefficient * s.age_coefficient

/-- The lambda `self.leaf_size`. -/
def leaf_size (s : PlantState) (width : ℝ) : ℝ :=
  width / 7 * s.deficit_coefficient * s.age_coefficient

/-- The lambda `self.pellet_size`. -/
def pellet_size (s : PlantState) (width : ℝ) : ℝ :=
  width / 9 * s.deficit_coefficient * s.age_coefficient

/-- The lambda `self.base_width`. -/
def base_width (s : PlantState) (width : ℝ) : ℝ :=
  width / 15 * s.deficit_coefficient * s.age_coefficient

/-- The lambda `self.base_height`. -/
def base_height (s : PlantState) (height : ℝ) : ℝ :=
  height / 1.7 * s.deficit_coefficient * s.age_coefficient

/-- The lambda `self.branch_width`. -/
def branch_width (s : PlantState) (width : ℝ) : ℝ :=
  width / 18 * s.deficit_coefficient * s.age_coefficient

/-- The lambda `self.branch_height`. -/
def branch_height (s : PlantState) (height : ℝ) : ℝ :=
  height / 2.7 * s.deficit_coefficient * s.age_coefficient

/-- The lambda `self.green_width` (GreenTree). -/
def green_width (s : PlantState) (width : ℝ) : ℝ :=
  width / 3.2 * s.deficit_coefficient * s.age_coefficient

/-- The lambda `self.green_height` (GreenTree). -/
def green_height (s : PlantState) (height : ℝ) : ℝ :=
  height / 1.5 * s.deficit_coefficient * s.age_coefficient

/-- The lambda `self.second_green_width` (DoubleGreenTree). -/
def second_green_width (s : PlantState) (width : ℝ) : ℝ :=
  width / 3.5 * s.deficit_coefficient * s.age_coefficient

/-- The lambda `self.second_green_height` (DoubleGreenTree). -/
def second_green_height (s : PlantState) (height : ℝ) : ℝ :=
  height / 2.4 * s.deficit_coefficient * s.age_coefficient

/-- The lambda `self.offset` (GreenTree): canopy offset capped at 95% of the
canvas height. -/
def offset (s : PlantState) (height : ℝ) : ℝ :=
  min (height * 0.95) (base_height s (height * 0.3 * smoothen_curve s.age))

/-- `Plant.get_adjusted_age`: `self.age ** 2`. -/
def get_adjusted_age (s : PlantState) : ℝ := s.age ^ 2

/-- `Plant.set_current_age`: stores the value, nothing else. -/
def set_current_age (s : PlantState) (age : ℝ) : PlantState := { s with age := age }

/-- Evaluate a random-consuming element builder once per index of `l`,
threading the stream left to right (models a Python list comprehension). -/
def genListAux {α : Type} (f : ℕ → Rng → α × Rng) : List ℕ → Rng → List α × Rng
  | [], g => ([], g)
  | i :: is, g =>
    let p := f i g
    let q := genListAux f is p.2
    (p.1 :: q.1, q.2)

/-- `[f(i) for i in range(count)]` with explicit random-stream threading. -/
def genList {α : Type} (f : ℕ → Rng → α × Rng) (count : ℕ) (g : Rng) :
    List α × Rng :=
  genListAux f (List.range count) g

/-- `Plant.generate`: `age_coefficient = (maxAge + 1) / 2`,
`deficit_coefficient = uniform(0.9, 1)`.  (Python would raise a `TypeError`
on an unset `maxAge`; `generate` is only ever reached after `set_max_age`,
so the `getD 0` default is never exercised.) -/
def Plant.generate (s : PlantState) (g : Rng) : PlantState × Rng :=
  let ac := (s.maxAge.getD 0 + 1) / 2
  let p := pyuniform 0.9 1 g
  ({ s with age_coefficient := ac, deficit_coefficient := p.1 }, p.2)

/-- One element of the `Flower.generateLeafs` comprehension:
position on the stem, size coefficient, rotation sign. -/
def leafEntry (dc : ℝ) (count i : ℕ) (g : Rng) : (ℝ × ℝ × ℝ) × Rng :=
  let p := pyuniform (dc * 0.25) (dc * 0.40) g
  let q := pyuniform 0.9 1.1 p.2
  if count = 2 then
    ((p.1, q.1, (((i : ℝ) - 1 / 2) * 2)), q.2)
  else
    let r := pyrandom q.2
    ((p.1, q.1, if r.1 < 0.5 then -1 else 1), r.2)

/-- `Flower.generateLeafs`. -/
def generateLeafs (s : PlantState) (count : ℕ) (g : Rng) : PlantState × Rng :=
  let p := genList (leafEntry s.deficit_coefficient count) count g
  ({ s with leafs := p.1 }, p.2)

/-- `Flower.generate`. -/
def Flower.generate (s : PlantState) (g : Rng) : PlantState × Rng :=
  let p := Plant.generate s g
  let u := pyuniform 0.4 1 p.2
  let r := pyrandom u.2
  let s1 := { p.1 with x_coefficient := u.1 * (if r.1 < 0.5 then -1 else 1) }
  let q := generateLeafs s1 2 r.2
  let w := pyuniform 3.5 4 q.2
  ({ q.1 with stem_width := w.1 * q.1.age_coefficient }, w.2)

/-- `CircularFlower.generate`: color, pellet count in [5,7], center-pellet
shrink factor, pellet silhouette; the `dip`/`round` silhouettes force the
count back to 5. -/
def CircularFlower.generate (s : PlantState) (g : Rng) : PlantState × Rng :=
  let p := Flower.generate s g
  let c := pychoice colors green_color p.2
  let n := pyrandint 5 7 c.2
  let cp := pyuniform 0.75 0.85 n.2
  let pf := pychoice
    [PelletKind.circular, PelletKind.triangle, PelletKind.dip, PelletKind.round]
    PelletKind.circular cp.2
  let nop := if pf.1 = PelletKind.dip ∨ pf.1 = PelletKind.round then 5 else n.1
  ({ p.1 with
      color := c.1,
      number_of_pellets := nop,
      center_pellet_smaller_coefficient := cp.1,
      pellet_drawing_function := pf.1 }, pf.2)

/-- One element of the `Tree.generateBranches` comprehension: position up the
trunk and rotation `sign * acos(uniform(0.4, 0.6))`. -/
def branchEntry (dc : ℝ) (count i : ℕ) (g : Rng) : (ℝ × ℝ) × Rng :=
  let p := pyuniform (dc * 0.45) (dc * 0.55) g
  if count = 2 then
    let u := pyuniform 0.4 0.6 p.2
    ((p.1, (((i : ℝ) - 1 / 2) * 2) * Real.arccos u.1), u.2)
  else
    let r := pyrandom p.2
    let u := pyuniform 0.4 0.6 r.2
    ((p.1, (if r.1 < 0.5 then (-1 : ℝ) else 1) * Real.arccos u.1), u.2)

/-- `Tree.generateBranches`. -/
def generateBranches (s : PlantState) (count : ℕ) (g : Rng) : PlantState × Rng :=
  let p := genList (branchEntry s.deficit_coefficient count) count g
  ({ s with branches := p.1 }, p.2)

/-- `Tree.generate`: `generateBranches(round(uniform(1, 2 * age_coefficient)))`. -/
def Tree.generate (s : PlantState) (g : Rng) : PlantState × Rng :=
  let p := Plant.generate s g
  let u := pyuniform 1 (2 * p.1.age_coefficient) p.2
  generateBranches p.1 (pyround u.1).toNat u.2

/-- `OrangeTree.generate`: re-generates exactly 2 branches, then one
size/position circle pair per branch plus one for the trunk apex. -/
def OrangeTree.generate (s : PlantState) (g : Rng) : PlantState × Rng :=
  let p := Tree.generate s g
  let q := generateBranches p.1 2 p.2
  let bc := genList (fun _ g0 =>
    let a := pyuniform (q.1.deficit_coefficient * 0.30) (q.1.deficit_coefficient * 0.37) g0
    let b := pyuniform (q.1.deficit_coefficient * 0.9) q.1.deficit_coefficient a.2
    ((a.1, b.1), b.2)) (q.1.branches.length + 1) q.2
  ({ q.1 with branch_circles := bc.1 }, bc.2)

/-- `GreenTree.generate` adds only closures over already-generated
coefficients (modelled by `green_width`/`green_height`/`offset`). -/
def GreenTree.generate (s : PlantState) (g : Rng) : PlantState × Rng :=
  Tree.generate s g

/-- `DoubleGreenTree.generate` likewise adds only closures. -/
def DoubleGreenTree.generate (s : PlantState) (g : Rng) : PlantState × Rng :=
  GreenTree.generate s g

/-- Dispatch of the virtual `generate` on the concrete class. -/
def generate (s : PlantState) (g : Rng) : PlantState × Rng :=
  match s.kind with
  | Variant.flower => Flower.generate s g
  | Variant.circularFlower => CircularFlower.generate s g
  | Variant.tree => Tree.generate s g
  | Variant.orangeTree => OrangeTree.generate s g
  | Variant.greenTree => GreenTree.generate s g
  | Variant.doubleGreenTree => DoubleGreenTree.generate s g

/-- `Plant.set_max_age`: store the ceiling, then re-generate. -/
def set_max_age (s : PlantState) (maxAge : ℝ) (g : Rng) : PlantState × Rng :=
  generate { s with maxAge := some maxAge } g

/-- A segment of a `QPainterPath` (paths start at the origin). -/
inductive PathSeg
  | quadTo (cx cy ex ey : ℝ)
  | cubicTo (c1x c1y c2x c2y ex ey : ℝ)

/-- One recorded `QPainter` call.  External Qt geometry
(`path.pointAtPercent`) is recorded symbolically with its arguments. -/
inductive DrawCmd
  | translate (dx dy : ℝ)
  | translateToPathPoint (segs : List PathSeg) (t : ℝ)
  | scale (sx sy : ℝ)
  | rotate (deg : ℝ)
  | save
  | restore
  | setPen (c : Color) (w : ℝ)
  | setPenZero
  | setPenNone
  | setBrush (c : Color)
  | drawPath (winding : Bool) (segs : List PathSeg)
  | drawPolygon (pts : List (ℝ × ℝ))
  | drawEllipseRect (ex ey w h : ℝ)
  | drawEllipseCenter (cx cy rx ry : ℝ)

/-- `math.degrees`. -/
def degrees (x : ℝ) : ℝ := x * 180 / Real.pi

/-- `concatMap f l`: concatenation of `f` over `l` (a Python for-loop whose
body emits painter calls). -/
def concatMap {α β : Type} (f : α → List β) : List α → List β
  | [] => []
  | a :: as => f a ++ concatMap f as

/-- The stem end x: `self.x = self.x_position(width) * smoothen_curve(self.age)`. -/
def flower_stem_x (s : PlantState) (width : ℝ) : ℝ :=
  x_position s width * smoothen_curve s.age

/-- The stem end y: `self.y = self.y_position(height) * smoothen_curve(self.age)`. -/
def flower_stem_y (s : PlantState) (height : ℝ) : ℝ :=
  y_position s height * smoothen_curve s.age

/-- The stem pen width: `self.stem_width * smoothen_curve(self.age)`. -/
def stem_pen_width (s : PlantState) : ℝ := s.stem_width * smoothen_curve s.age

/-- The leaf size used when drawing one leaf:
`self.leaf_size(width) * smoothen_curve(self.age) ** 2 * coefficient`.
Note the square falls on `smoothen_curve(age)`, not on the age. -/
def leaf_ls (s : PlantState) (width coefficient : ℝ) : ℝ :=
  leaf_size s width * smoothen_curve s.age ^ 2 * coefficient

/-- The guarded lean rotation of a leaf:
`if self.y != 0: painter.rotate(-degrees(sin(self.x / self.y)))`.
The division by `y` happens only under the guard. -/
def lean_rotation_cmds (x y : ℝ) : List DrawCmd :=
  if y ≠ 0 then [DrawCmd.rotate (-(degrees (Real.sin (x / y))))] else []

/-- `Flower._draw`.  Mutates the instance: stores the stem end in
`self.x`/`self.y`, then draws the stem and the two leaves. -/
def Flower.drawShape (s0 : PlantState) (width height : ℝ) :
    PlantState × List DrawCmd :=
  let s := { s0 with x := flower_stem_x s0 width, y := flower_stem_y s0 height }
  let stemPath := [PathSeg.quadTo 0 (s.y * 0.6) s.x s.y]
  (s, [DrawCmd.setPen green_color (stem_pen_width s), DrawCmd.drawPath false stemPath]
    ++ concatMap (fun l =>
        [DrawCmd.save, DrawCmd.translateToPathPoint stemPath l.1,
         DrawCmd.rotate (degrees l.2.2)]
        ++ lean_rotation_cmds s.x s.y
        ++ (if l.2.2 < 0 then [DrawCmd.scale (-1) 1] else [])
        ++ [DrawCmd.setBrush green_color, DrawCmd.setPenZero,
            DrawCmd.drawPath true
              [PathSeg.quadTo (0.4 * leaf_ls s width l.2.1)
                (0.5 * leaf_ls s width l.2.1) 0 (leaf_ls s width l.2.1),
               PathSeg.cubicTo 0 (0.5 * leaf_ls s width l.2.1)
                (-0.4 * leaf_ls s width l.2.1) (0.4 * leaf_ls s width l.2.1) 0 0],
            DrawCmd.restore]) s.leafs)

/-- The pellet size used by `CircularFlower._draw`:
`self.pellet_size(width) * smoothen_curve(self.age)`. -/
def pellet_scaled (s : PlantState) (width : ℝ) : ℝ :=
  pellet_size s width * smoothen_curve s.age

/-- The painter calls of one pellet drawing function. -/
def pelletCmds (k : PelletKind) (ps : ℝ) : List DrawCmd :=
  match k with
  | PelletKind.triangle =>
    [DrawCmd.drawPath true
      [PathSeg.quadTo (0.9 * (ps * 1.5)) (0.5 * (ps * 1.5)) 0 (ps * 1.5),
       PathSeg.quadTo (-0.5 * (ps * 1.5)) (0.4 * (ps * 1.5)) 0 0]]
  | PelletKind.circular => [DrawCmd.drawEllipseRect 0 0 ps ps]
  | PelletKind.round =>
    [DrawCmd.drawPath true
      [PathSeg.quadTo (1 * (ps * 1.3) * 0.8) ((ps * 1.3) * 0.9) 0 (ps * 1.3),
       PathSeg.quadTo (-1 * (ps * 1.3) * 0.8) ((ps * 1.3) * 0.9) 0 0]]
  | PelletKind.dip =>
    [DrawCmd.drawPath true
      [PathSeg.quadTo (1 * (ps * 1.2)) ((ps * 1.2) * 1.4) 0 (ps * 1.2),
       PathSeg.quadTo (-1 * (ps * 1.2)) ((ps * 1.2) * 1.4) 0 0]]

/-- The radial pellet loop: draw the pellet, rotate by `360 / count`. -/
def pelletLoop (k : PelletKind) (n : ℕ) (ps : ℝ) : List DrawCmd :=
  concatMap (fun _ => pelletCmds k ps ++ [DrawCmd.rotate (360 / (n : ℝ))])
    (List.range n)

/-- `CircularFlower._draw`: first the inherited flower, then the pellets
around the freshly stored `self.x`/`self.y`, then the white center. -/
def CircularFlower.drawShape (s0 : PlantState) (width height : ℝ) :
    PlantState × List DrawCmd :=
  let p := Flower.drawShape s0 width height
  let s := p.1
  let ps := pellet_scaled s width
  (s, p.2
    ++ [DrawCmd.save, DrawCmd.translate s.x s.y, DrawCmd.setPenNone,
        DrawCmd.setBrush s.color]
    ++ pelletLoop s.pellet_drawing_function s.number_of_pellets ps
    ++ [DrawCmd.setBrush white_color,
        DrawCmd.drawEllipseRect (-(ps * s.center_pellet_smaller_coefficient) / 2)
          (-(ps * s.center_pellet_smaller_coefficient) / 2)
          (ps * s.center_pellet_smaller_coefficient)
          (ps * s.center_pellet_smaller_coefficient),
        DrawCmd.restore])

/-- Trunk half width: `self.base_width(width) * smoothen_curve(self.age)`. -/
def trunk_half_width (s : PlantState) (width : ℝ) : ℝ :=
  base_width s width * smoothen_curve s.age

/-- Trunk height: `self.base_height(height) * smoothen_curve(self.age)`. -/
def trunk_height (s : PlantState) (height : ℝ) : ℝ :=
  base_height s height * smoothen_curve s.age

/-- Branch attach height: `self.base_height(height * h * smoothen_curve(self.age))`. -/
def branch_attach_y (s : PlantState) (height hh : ℝ) : ℝ :=
  base_height s (height * hh * smoothen_curve s.age)

/-- Branch half width:
`self.branch_width(width) * smoothen_curve(self.get_adjusted_age()) * (1 - h)`. -/
def branch_half_width (s : PlantState) (width hh : ℝ) : ℝ :=
  branch_width s width * smoothen_curve (get_adjusted_age s) * (1 - hh)

/-- Branch length:
`self.branch_height(height) * smoothen_curve(self.get_adjusted_age()) * (1 - h)`. -/
def branch_len (s : PlantState) (height hh : ℝ) : ℝ :=
  branch_height s height * smoothen_curve (get_adjusted_age s) * (1 - hh)

/-- `Tree._draw`: trunk triangle, then one rotated triangle per branch. -/
def Tree.drawShape (s : PlantState) (width height : ℝ) :
    PlantState × List DrawCmd :=
  (s, [DrawCmd.setBrush brown_color,
       DrawCmd.drawPolygon [(-trunk_half_width s width, 0),
         (trunk_half_width s width, 0), (0, trunk_height s height)]]
    ++ concatMap (fun b =>
        [DrawCmd.save, DrawCmd.translate 0 (branch_attach_y s height b.1),
         DrawCmd.rotate (degrees b.2),
         DrawCmd.drawPolygon [(-branch_half_width s width b.1, 0),
           (branch_half_width s width b.1, 0), (0, branch_len s height b.1)],
         DrawCmd.restore]) s.branches)

/-- Fruit radius of `OrangeTree._draw`:
`((width + height) / 2) * size * smoothen_curve(adjusted_age) * (1 - h) * age_coefficient`. -/
def fruit_radius (s : PlantState) (width height sz hh : ℝ) : ℝ :=
  ((width + height) / 2) * sz * smoothen_curve (get_adjusted_age s) * (1 - hh)
    * s.age_coefficient

/-- `OrangeTree._draw`: a fruit circle per branch, a 1.3x apex circle (whose
`(1 - h)` factor reuses Python's leaked loop variable, i.e. the last branch's
position; with no branches Python would raise `NameError`, but `OrangeTree`
always generates exactly 2), then the inherited tree drawing. -/
def OrangeTree.drawShape (s : PlantState) (width height : ℝ) :
    PlantState × List DrawCmd :=
  let fruitCmds := concatMap (fun bc =>
    [DrawCmd.save, DrawCmd.translate 0 (branch_attach_y s height bc.1.1),
     DrawCmd.rotate (degrees bc.1.2), DrawCmd.setBrush orange_color,
     DrawCmd.drawEllipseCenter 0 (branch_len s height bc.1.1 * bc.2.2)
       (fruit_radius s width height bc.2.1 bc.1.1)
       (fruit_radius s width height bc.2.1 bc.1.1),
     DrawCmd.restore]) (s.branches.zip s.branch_circles)
  let lastH := ((s.branches.getLast?).map Prod.fst).getD 0
  let lastC := (s.branch_circles.getLast?).getD (0, 0)
  let p := Tree.drawShape s width height
  (p.1, [DrawCmd.setPenNone, DrawCmd.setBrush orange_color]
    ++ fruitCmds
    ++ [DrawCmd.drawEllipseCenter 0 (trunk_height s height * lastC.2)
          (fruit_radius s width height lastC.1 lastH * 1.3)
          (fruit_radius s width height lastC.1 lastH * 1.3)]
    ++ p.2)

/-- Canopy half width (GreenTree). -/
def canopy_half_width (s : PlantState) (width : ℝ) : ℝ :=
  green_width s width * smoothen_curve s.age

/-- Canopy height (GreenTree). -/
def canopy_height (s : PlantState) (height : ℝ) : ℝ :=
  green_height s height * smoothen_curve s.age

/-- `GreenTree._draw`: the canopy triangle, then the inherited tree. -/
def GreenTree.drawShape (s : PlantState) (width height : ℝ) :
    PlantState × List DrawCmd :=
  let p := Tree.drawShape s width height
  (p.1, [DrawCmd.setPenNone, DrawCmd.setBrush green_color,
         DrawCmd.drawPolygon [(-canopy_half_width s width, offset s height),
           (canopy_half_width s width, offset s height),
           (0, canopy_height s height + offset s height)]]
    ++ p.2)

/-- Second canopy half width (DoubleGreenTree):
`self.second_green_width(width) * smoothen_curve(self.age) ** 2`.
As with the leaf, the square falls on `smoothen_curve(age)`. -/
def second_canopy_half_width (s : PlantState) (width : ℝ) : ℝ :=
  second_green_width s width * smoothen_curve s.age ^ 2

/-- Second canopy height term (DoubleGreenTree). -/
def second_canopy_height (s : PlantState) (height : ℝ) : ℝ :=
  second_green_height s height * smoothen_curve s.age

/-- `DoubleGreenTree._draw`: the second canopy triangle (its own offset is
computed without GreenTree's 95% cap; only the apex is capped), then the
inherited GreenTree drawing. -/
def DoubleGreenTree.drawShape (s : PlantState) (width height : ℝ) :
    PlantState × List DrawCmd :=
  let off := base_height s (height * 0.3 * smoothen_curve s.age)
  let soff := (green_height s height - second_green_height s height)
    * smoothen_curve s.age
  let p := GreenTree.drawShape s width height
  (p.1, [DrawCmd.setPenNone, DrawCmd.setBrush green_color,
         DrawCmd.drawPolygon [(-second_canopy_half_width s width, off + soff),
           (second_canopy_half_width s width, off + soff),
           (0, min (second_canopy_height s height + off + soff) (height * 0.95))]]
    ++ p.2)

/-- Dispatch of the virtual `_draw` on the concrete class. -/
def drawShape (s : PlantState) (width height : ℝ) : PlantState × List DrawCmd :=
  match s.kind with
  | Variant.flower => Flower.drawShape s width height
  | Variant.circularFlower => CircularFlower.drawShape s width height
  | Variant.tree => Tree.drawShape s width height
  | Variant.orangeTree => OrangeTree.drawShape s width height
  | Variant.greenTree => GreenTree.drawShape s width height
  | Variant.doubleGreenTree => DoubleGreenTree.drawShape s width height

/-- `Plant.draw`: no-op while `maxAge` is unset; otherwise move the origin to
the bottom center, flip the y-axis upward, and delegate to `_draw` with
`min(width, height)` as both dimensions. -/
def Plant.draw (s : PlantState) (width height : ℝ) :
    PlantState × List DrawCmd :=
  match s.maxAge with
  | none => (s, [])
  | some _ =>
    let p := drawShape s (min width height) (min width height)
    (p.1, DrawCmd.translate (width / 2) height :: DrawCmd.scale 1 (-1) :: p.2)

/-- A generated full-grown Flower whose cached stem-end fields hold stale
values (both 0), used to exhibit the draw-time mutation. -/
def flowerFull : PlantState :=
  { initState Variant.flower with
    age := 1, maxAge := some 1, age_coefficient := 1,
    deficit_coefficient := 1, x_coefficient := 1 }

/-- A generated full-grown Tree with one branch. -/
def treeFull : PlantState :=
  { initState Variant.tree with
    age := 1, maxAge := some 1, age_coefficient := 1,
    deficit_coefficient := 1, branches := [(1 / 2, 1)] }

/-- A generated Flower at age 0 (stale cache fields zeroed). -/
def flowerZero : PlantState :=
  { initState Variant.flower with
    maxAge := some 1, age_coefficient := 1,
    deficit_coefficient := 1, x_coefficient := 1 }

/-- A freshly constructed Tree whose `maxAge` has been stored (the state on
which `Tree.generate` runs inside `set_max_age 1`). -/
def treeMax : PlantState := { initState Variant.tree with maxAge := some 1 }

/-- A generated Flower at age 1/2 with unit coefficients, used to exhibit
the leaf-size scaling law. -/
def flowerHalf : PlantState :=
  { initState Variant.flower with
    age := 1 / 2, maxAge := some 1, age_coefficient := 1,
    deficit_coefficient := 1, x_coefficient := 1 }

lemma Rng.valid_next {g : Rng} (h : Rng.valid g) : Rng.valid (Rng.next g).2 :=
  fun n => h (n + 1)

lemma Rng.next_mem {g : Rng} (h : Rng.valid g) :
    0 ≤ (Rng.next g).1 ∧ (Rng.next g).1 < 1 := h 0

lemma Rng.valid_tail {g : Rng} (h : Rng.valid g) : Rng.valid (Rng.tail g) :=
  fun n => h (n + 1)

lemma pyuniform_mem {a b : ℝ} {g : Rng} (hg : Rng.valid g) (hab : a ≤ b) :
    a ≤ (pyuniform a b g).1 ∧ (pyuniform a b g).1 ≤ b := by
  obtain ⟨h0, h1⟩ := hg 0
  show a ≤ a + (b - a) * g 0 ∧ a + (b - a) * g 0 ≤ b
  constructor
  · nlinarith
  · nlinarith

/-- `smoothen_curve 0 = 0` (the sine hits the bottom of its wave). -/
lemma smoothen_curve_zero : smoothen_curve 0 = 0 := by
  unfold smoothen_curve
  have h : ((0 : ℝ) - 1 / 2) * Real.pi = -(Real.pi / 2) := by ring
  rw [h, Real.sin_neg, Real.sin_pi_div_two]
  norm_num

/-- `smoothen_curve 1 = 1`. -/
lemma smoothen_curve_one : smoothen_curve 1 = 1 := by
  unfold smoothen_curve
  have h : ((1 : ℝ) - 1 / 2) * Real.pi = Real.pi / 2 := by ring
  rw [h, Real.sin_pi_div_two]
  norm_num

/-- `smoothen_curve (1/2) = 1/2`. -/
lemma smoothen_curve_half : smoothen_curve (1 / 2) = 1 / 2 := by
  unfold smoothen_curve
  have h : ((1 / 2 : ℝ) - 1 / 2) * Real.pi = 0 := by ring
  rw [h, Real.sin_zero]
  norm_num

/-- `smoothen_curve (1/4) = (1 - √2/2) / 2`. -/
lemma smoothen_curve_quarter :
    smoothen_curve (1 / 4) = (1 - Real.sqrt 2 / 2) / 2 := by
  unfold smoothen_curve
  have h : ((1 / 4 : ℝ) - 1 / 2) * Real.pi = -(Real.pi / 4) := by ring
  rw [h, Real.sin_neg, Real.sin_pi_div_four]
  ring

/-- `smoothen_curve` is monotone on [0,1]: its argument stays inside the
increasing half-wave [-π/2, π/2] of the sine. -/
lemma smoothen_curve_mono {a b : ℝ} (h0 : 0 ≤ a) (hab : a ≤ b) (h1 : b ≤ 1) :
    smoothen_curve a ≤ smoothen_curve b := by
  unfold smoothen_curve
  have hpi := Real.pi_pos
  have hmem1 : (a - 1 / 2) * Real.pi ∈ Set.Icc (-(Real.pi / 2)) (Real.pi / 2) := by
    constructor
    · nlinarith
    · nlinarith
  have hmem2 : (b - 1 / 2) * Real.pi ∈ Set.Icc (-(Real.pi / 2)) (Real.pi / 2) := by
    constructor
    · nlinarith
    · nlinarith
  have harg : (a - 1 / 2) * Real.pi ≤ (b - 1 / 2) * Real.pi := by nlinarith
  have hsin := Real.strictMonoOn_sin.monotoneOn hmem1 hmem2 harg
  linarith

/-- Point symmetry of `smoothen_curve` about (1/2, 1/2); the sine is odd. -/
lemma smoothen_curve_symm (x : ℝ) :
    smoothen_curve x + smoothen_curve (1 - x) = 1 := by
  unfold smoothen_curve
  have h : (1 - x - 1 / 2) * Real.pi = -((x - 1 / 2) * Real.pi) := by ring
  rw [h, Real.sin_neg]
  ring

lemma leafEntry_valid {dc : ℝ} {count i : ℕ} {g : Rng} (h : Rng.valid g) :
    Rng.valid (leafEntry dc count i g).2 := by
  by_cases hc : count = 2
  · subst hc
    exact Rng.valid_tail (Rng.valid_tail h)
  · simp only [leafEntry, if_neg hc]
    exact Rng.valid_tail (Rng.valid_tail (Rng.valid_tail h))

lemma branchEntry_valid {dc : ℝ} {count i : ℕ} {g : Rng} (h : Rng.valid g) :
    Rng.valid (branchEntry dc count i g).2 := by
  by_cases hc : count = 2
  · subst hc
    exact Rng.valid_tail (Rng.valid_tail h)
  · simp only [branchEntry, if_neg hc]
    exact Rng.valid_tail (Rng.valid_tail (Rng.valid_tail h))

lemma genListAux_valid {α : Type} {f : ℕ → Rng → α × Rng}
    (hf : ∀ i g, Rng.valid g → Rng.valid (f i g).2) :
    ∀ (l : List ℕ) (g : Rng), Rng.valid g → Rng.valid (genListAux f l g).2 := by
  intro l
  induction l with
  | nil => intro g hg; exact hg
  | cons i is ih => intro g hg; exact ih _ (hf i g hg)

lemma genListAux_length {α : Type} (f : ℕ → Rng → α × Rng) :
    ∀ (l : List ℕ) (g : Rng), (genListAux f l g).1.length = l.length := by
  intro l
  induction l with
  | nil => intro g; rfl
  | cons i is ih =>
    intro g
    have hcons : (genListAux f (i :: is) g).1
        = (f i g).1 :: (genListAux f is (f i g).2).1 := rfl
    rw [hcons, List.length_cons, ih, List.length_cons]

lemma genListAux_mem {α : Type} {f : ℕ → Rng → α × Rng} {P : α → Prop}
    (hV : ∀ i g, Rng.valid g → Rng.valid (f i g).2) :
    ∀ (l : List ℕ) (g : Rng), Rng.valid g →
      (∀ i, i ∈ l → ∀ g', Rng.valid g' → P (f i g').1) →
      ∀ a, a ∈ (genListAux f l g).1 → P a := by
  intro l
  induction l with
  | nil =>
    intro g hg hP a ha
    simp [genListAux] at ha
  | cons i is ih =>
    intro g hg hP a ha
    have hcons : (genListAux f (i :: is) g).1
        = (f i g).1 :: (genListAux f is (f i g).2).1 := rfl
    rw [hcons, List.mem_cons] at ha
    rcases ha with ha | ha
    · exact ha ▸ hP i (List.mem_cons_self i is) g hg
    · exact ih (f i g).2 (hV i g hg)
        (fun j hj => hP j (List.mem_cons_of_mem i hj)) a ha

lemma Plant_generate_valid (s : PlantState) {g : Rng} (h : Rng.valid g) :
    Rng.valid (Plant.generate s g).2 :=
  Rng.valid_tail h

lemma Flower_generate_valid (s : PlantState) {g : Rng} (h : Rng.valid g) :
    Rng.valid (Flower.generate s g).2 := by
  have h3 : Rng.valid (pyrandom (pyuniform 0.4 1 (Plant.generate s g).2).2).2 :=
    Rng.valid_tail (Rng.valid_tail (Rng.valid_tail h))
  have h4 : Rng.valid (genListAux
      (leafEntry (Plant.generate s g).1.deficit_coefficient 2) (List.range 2)
      (pyrandom (pyuniform 0.4 1 (Plant.generate s g).2).2).2).2 :=
    genListAux_valid
      (fun i g0 hg0 =>
        @leafEntry_valid ((Plant.generate s g).1.deficit_coefficient) 2 i g0 hg0)
      (List.range 2) _ h3
  exact Rng.valid_tail h4

lemma pyrandint_5_7_mem {g : Rng} (hg : Rng.valid g) :
    (pyrandint 5 7 g).1 = 5 ∨ (pyrandint 5 7 g).1 = 6 ∨ (pyrandint 5 7 g).1 = 7 := by
  obtain ⟨h0, h1⟩ := hg 0
  have hval : (pyrandint 5 7 g).1 = 5 + Nat.floor (g 0 * 3) := by
    show 5 + Nat.floor (g 0 * ((7 : ℝ) - (5 : ℝ) + 1)) = 5 + Nat.floor (g 0 * 3)
    norm_num
  have h30 : (0 : ℝ) ≤ g 0 * 3 := by nlinarith
  have hlt : Nat.floor (g 0 * 3) < 3 := by
    rw [Nat.floor_lt h30]
    push_cast
    nlinarith
  rw [hval]
  omega

lemma pyround_one_two {u : ℝ} (h1 : 1 ≤ u) (h2 : u ≤ 2) :
    pyround u = 1 ∨ pyround u = 2 := by
  rcases lt_or_ge u 2 with hlt | hge
  · have hfl : Int.floor u = 1 := by
      rw [Int.floor_eq_iff]
      constructor
      · exact_mod_cast h1
      · push_cast
        linarith
    have hfr : Int.fract u = u - 1 := by
      simp only [Int.fract, hfl]
      push_cast
      ring
    unfold pyround
    rw [hfr, hfl]
    by_cases hc1 : u - 1 < 1 / 2
    · rw [if_pos hc1]
      exact Or.inl rfl
    · rw [if_neg hc1]
      by_cases hc2 : (1 : ℝ) / 2 < u - 1
      · rw [if_pos hc2]
        refine Or.inr ?_
        rw [Int.ceil_eq_iff]
        constructor
        · push_cast
          linarith
        · push_cast
          linarith
      · rw [if_neg hc2]
        rw [if_neg (by decide : ¬ Even (1 : ℤ))]
        exact Or.inr rfl
  · have hu2 : u = 2 := le_antisymm h2 hge
    subst hu2
    have hfl : Int.floor (2 : ℝ) = 2 := by
      rw [show ((2 : ℝ)) = ((2 : ℤ) : ℝ) by norm_num, Int.floor_intCast]
    have hfr : Int.fract (2 : ℝ) = 0 := by
      simp only [Int.fract, hfl]
      norm_num
    unfold pyround
    rw [hfr, hfl, if_pos (by norm_num : (0 : ℝ) < 1 / 2)]
    exact Or.inr rfl

lemma branchEntry_prop {dc : ℝ} {count i : ℕ} {g : Rng} (hg : Rng.valid g)
    (hok : count = 2 → i < 2) :
    ∃ sg u, (sg = (-1 : ℝ) ∨ sg = 1) ∧ (0.4 : ℝ) ≤ u ∧ u ≤ 0.6 ∧
      (branchEntry dc count i g).1.2 = sg * Real.arccos u := by
  by_cases hc : count = 2
  · subst hc
    have hi2 := hok rfl
    have hvt : Rng.valid (pyuniform (dc * 0.45) (dc * 0.55) g).2 := Rng.valid_tail hg
    have hub := pyuniform_mem hvt (by norm_num : (0.4 : ℝ) ≤ 0.6)
    interval_cases i
    · refine ⟨-1, _, Or.inl rfl, hub.1, hub.2, ?_⟩
      show (((0 : ℕ) : ℝ) - 1 / 2) * 2
          * Real.arccos (pyuniform 0.4 0.6 (pyuniform (dc * 0.45) (dc * 0.55) g).2).1
        = -1 * Real.arccos (pyuniform 0.4 0.6 (pyuniform (dc * 0.45) (dc * 0.55) g).2).1
      push_cast
      ring
    · refine ⟨1, _, Or.inr rfl, hub.1, hub.2, ?_⟩
      show (((1 : ℕ) : ℝ) - 1 / 2) * 2
          * Real.arccos (pyuniform 0.4 0.6 (pyuniform (dc * 0.45) (dc * 0.55) g).2).1
        = 1 * Real.arccos (pyuniform 0.4 0.6 (pyuniform (dc * 0.45) (dc * 0.55) g).2).1
      push_cast
      ring
  · have hval : (branchEntry dc count i g).1.2
        = (if (pyrandom (pyuniform (dc * 0.45) (dc * 0.55) g).2).1 < 0.5
            then (-1 : ℝ) else 1)
          * Real.arccos
            (pyuniform 0.4 0.6 (pyrandom (pyuniform (dc * 0.45) (dc * 0.55) g).2).2).1 := by
      simp only [branchEntry, if_neg hc]
    have hvt : Rng.valid (pyrandom (pyuniform (dc * 0.45) (dc * 0.55) g).2).2 :=
      Rng.valid_tail (Rng.valid_tail hg)
    have hub := pyuniform_mem hvt (by norm_num : (0.4 : ℝ) ≤ 0.6)
    refine ⟨_, _, ?_, hub.1, hub.2, hval⟩
    by_cases hcoin : (pyrandom (pyuniform (dc * 0.45) (dc * 0.55) g).2).1 < 0.5
    · exact Or.inl (if_pos hcoin)
    · exact Or.inr (if_neg hcoin)

/-- C1: the smoothing function `smoothen_curve(x) = (sin((x - 1/2)·π) + 1)/2`
satisfies, for every x in [0,1]: `smoothen_curve 0 = 0`, `smoothen_curve 1 = 1`,
monotone non-decreasing on [0,1], and `smoothen_curve x + smoothen_curve (1-x) = 1`
(point symmetry about (1/2, 1/2)). -/
theorem C1_smoothen_curve_properties (x : ℝ) (hx0 : 0 ≤ x) (hx1 : x ≤ 1) :
    smoothen_curve 0 = 0 ∧ smoothen_curve 1 = 1 ∧
    (∀ z, x ≤ z → z ≤ 1 → smoothen_curve x ≤ smoothen_curve z) ∧
    smoothen_curve x + smoothen_curve (1 - x) = 1 :=
  ⟨smoothen_curve_zero, smoothen_curve_one,
   fun _ hxz hz1 => smoothen_curve_mono hx0 hxz hz1, smoothen_curve_symm x⟩

/-- Witness for C1 at the concrete input x = 1/2. -/
theorem C1_witness :
    smoothen_curve 0 = 0 ∧ smoothen_curve 1 = 1 ∧
    smoothen_curve (1 / 2) + smoothen_curve (1 - 1 / 2) = 1 :=
  ⟨(C1_smoothen_curve_properties (1 / 2) (by norm_num) (by norm_num)).1,
   (C1_smoothen_curve_properties (1 / 2) (by norm_num) (by norm_num)).2.1,
   (C1_smoothen_curve_properties (1 / 2) (by norm_num) (by norm_num)).2.2.2⟩

/-- C2: if `maxAge` was never set (still `None`), `draw` is a safe no-op for
every variant, age, width and height: it emits no painter calls and leaves
the plant state unchanged. -/
theorem C2_draw_uninitialized_noop (s : PlantState) (width height : ℝ)
    (h : s.maxAge = none) :
    Plant.draw s width height = (s, []) := by
  unfold Plant.draw
  rw [h]

/-- Witness for C2: a freshly constructed Flower, drawn at 500 x 500. -/
theorem C2_witness :
    Plant.draw (initState Variant.flower) 500 500 = (initState Variant.flower, []) :=
  C2_draw_uninitialized_noop (initState Variant.flower) 500 500 rfl

/-- Counterexample to C4 as stated: drawing a generated Flower changes the
instance field `x` (`Flower._draw` stores the stem end into `self.x`). -/
theorem C4_counterexample :
    (Plant.draw flowerFull 500 500).1.x ≠ flowerFull.x := by
  have hx : (Plant.draw flowerFull 500 500).1.x
      = min (500 : ℝ) 500 / 9 * 1 * smoothen_curve 1 := rfl
  rw [hx, smoothen_curve_one]
  norm_num [flowerFull, initState]

/-- C4 amended: `draw` changes at most the cached stem-end fields `x` and
`y`; every other field of the plant state is left unchanged by `draw`. -/
theorem C4_amended_draw_mutates_only_cache (s : PlantState) (width height : ℝ) :
    (Plant.draw s width height).1 =
      { s with x := (Plant.draw s width height).1.x,
               y := (Plant.draw s width height).1.y } := by
  obtain ⟨k, a, mA, ac, dc, xc, lf, sw, xx, yy, c, np, cp, pf, br, bc⟩ := s
  cases mA with
  | none => rfl
  | some m => cases k <;> rfl

/-- Counterexample to C5 as stated: no boundary validation exists.  The age 2
lies outside [0,1] yet `set_current_age` accepts and stores it, and `draw`
with width = height = 0 still happily renders instead of failing. -/
theorem C5_counterexample :
    (2 : ℝ) ∉ Set.Icc (0 : ℝ) 1 ∧
    (set_current_age treeFull 2).age = 2 ∧
    (Plant.draw treeFull 0 0).2 ≠ [] := by
  refine ⟨by norm_num, rfl, ?_⟩
  have h : (Plant.draw treeFull 0 0).2
      = DrawCmd.translate (0 / 2) 0 :: DrawCmd.scale 1 (-1)
        :: (drawShape treeFull (min 0 0) (min 0 0)).2 := rfl
  rw [h]
  exact List.cons_ne_nil _ _

/-- C5 amended: the setters and `draw` perform no input validation at all:
`set_current_age` stores any real unchanged, and `draw` emits no command
exactly when `maxAge` is unset — any width/height, including non-positive
ones, is accepted and drawn. -/
theorem C5_amended_no_validation (s : PlantState) (a width height : ℝ) :
    (set_current_age s a).age = a ∧
    ((Plant.draw s width height).2 = [] ↔ s.maxAge = none) := by
  refine ⟨rfl, ?_⟩
  obtain ⟨k, age0, mA, ac, dc, xc, lf, sw, xx, yy, c, np, cp, pf, br, bc⟩ := s
  cases mA with
  | none => simp [Plant.draw]
  | some m => simp [Plant.draw]

/-- C6: `draw` is deterministic — it consumes no randomness (in this
embedding it takes no random stream, mirroring the source, which calls no
`random` function at draw time), and its output geometry is a pure function
of the current age, `maxAge` and frozen generated parameters: it does not
even depend on the mutable stem-end cache `x`/`y`, which it overwrites
before use. -/
theorem C6_draw_deterministic (s : PlantState) (x' y' width height : ℝ) :
    (Plant.draw { s with x := x', y := y' } width height).2 =
      (Plant.draw s width height).2 := by
  obtain ⟨k, a, mA, ac, dc, xc, lf, sw, xx, yy, c, np, cp, pf, br, bc⟩ := s
  cases mA with
  | none => rfl
  | some m => cases k <;> rfl

/-- C9: with `maxAge` set, `draw` first places the origin at the bottom
center (`translate(width/2, height)`) and flips the y-axis upward
(`scale(1, -1)`), then delegates to the variant shape routine with
`min(width, height)` passed as BOTH dimensions; hence the geometry after the
two origin commands is unchanged whenever `min(width, height)` is unchanged,
no matter how the larger dimension varies. -/
theorem C9_draw_origin_bottom_center_min_unit (s : PlantState)
    (width height width' height' : ℝ) (hs : s.maxAge ≠ none)
    (hmin : min width height = min width' height') :
    (Plant.draw s width height).2 =
      DrawCmd.translate (width / 2) height :: DrawCmd.scale 1 (-1) ::
        (drawShape s (min width height) (min width height)).2 ∧
    List.drop 2 (Plant.draw s width height).2 =
      List.drop 2 (Plant.draw s width' height').2 := by
  obtain ⟨m, hm⟩ := Option.ne_none_iff_exists'.mp hs
  constructor
  · unfold Plant.draw
    rw [hm]
  · unfold Plant.draw
    rw [hm, hmin]
    rfl

/-- Witness for C9: a generated tree drawn on a 200 x 800 canvas versus a
200 x 300 canvas; both have `min = 200`, so the shape geometry agrees. -/
theorem C9_witness :
    (Plant.draw treeFull 200 800).2 =
      DrawCmd.translate (200 / 2) 800 :: DrawCmd.scale 1 (-1) ::
        (drawShape treeFull (min 200 800) (min 200 800)).2 ∧
    List.drop 2 (Plant.draw treeFull 200 800).2 =
      List.drop 2 (Plant.draw treeFull 200 300).2 :=
  C9_draw_origin_bottom_center_min_unit treeFull 200 800 200 300
    (by simp [treeFull, initState]) (by norm_num)

/-- C10: the leaf lean rotation divides `x / y` only under the guard
`y ≠ 0`; at age 0 the computed stem end y collapses to 0 (because
`smoothen_curve 0 = 0`), so the rotation is skipped rather than dividing by
zero, and in general a zero divisor always yields the skipped branch. -/
theorem C10_lean_rotation_guarded (s : PlantState) (width height : ℝ)
    (hage : s.age = 0) :
    flower_stem_y s height = 0 ∧
    lean_rotation_cmds (flower_stem_x s width) (flower_stem_y s height) = [] ∧
    (∀ x' y' : ℝ, y' = 0 → lean_rotation_cmds x' y' = []) := by
  have hy : flower_stem_y s height = 0 := by
    unfold flower_stem_y
    rw [hage, smoothen_curve_zero, mul_zero]
  refine ⟨hy, ?_, ?_⟩
  · unfold lean_rotation_cmds
    rw [hy]
    simp
  · intro x' y' h
    unfold lean_rotation_cmds
    rw [h]
    simp

/-- Witness for C10: the age-0 Flower above, at a 500 x 500 canvas. -/
theorem C10_witness :
    flower_stem_y flowerZero 500 = 0 ∧
    lean_rotation_cmds (flower_stem_x flowerZero 500) (flower_stem_y flowerZero 500) = [] :=
  ⟨(C10_lean_rotation_guarded flowerZero 500 500 rfl).1,
   (C10_lean_rotation_guarded flowerZero 500 500 rfl).2.1⟩

/-- C7: after every `CircularFlower.generate` the pellet count lies in
{5, 6, 7}, and whenever the chosen pellet silhouette is `round` or `dip` the
count is exactly 5, regardless of the initially sampled `randint(5, 7)`. -/
theorem C7_pellet_count_forced (s : PlantState) (g : Rng) (hg : Rng.valid g) :
    ((CircularFlower.generate s g).1.number_of_pellets = 5 ∨
     (CircularFlower.generate s g).1.number_of_pellets = 6 ∨
     (CircularFlower.generate s g).1.number_of_pellets = 7) ∧
    (((CircularFlower.generate s g).1.pellet_drawing_function = PelletKind.round ∨
      (CircularFlower.generate s g).1.pellet_drawing_function = PelletKind.dip) →
     (CircularFlower.generate s g).1.number_of_pellets = 5) := by
  have hvc : Rng.valid (pychoice colors green_color (Flower.generate s g).2).2 :=
    Rng.valid_tail (Flower_generate_valid s hg)
  have hmem := pyrandint_5_7_mem hvc
  obtain ⟨pfv, nv, hpdf, hnum, hnv⟩ :
      ∃ pfv nv,
        (CircularFlower.generate s g).1.pellet_drawing_function = pfv ∧
        (CircularFlower.generate s g).1.number_of_pellets
          = (if pfv = PelletKind.dip ∨ pfv = PelletKind.round then 5 else nv) ∧
        (nv = 5 ∨ nv = 6 ∨ nv = 7) :=
    ⟨_, _, rfl, rfl, hmem⟩
  by_cases hc : pfv = PelletKind.dip ∨ pfv = PelletKind.round
  · rw [if_pos hc] at hnum
    exact ⟨Or.inl hnum, fun _ => hnum⟩
  · rw [if_neg hc] at hnum
    constructor
    · rw [hnum]
      exact hnv
    · intro hx
      rw [hpdf] at hx
      exact absurd (hx.elim Or.inr Or.inl) hc

/-- Witness for C7: a fresh CircularFlower generated from the all-zeros
stream has a pellet count in {5, 6, 7}. -/
theorem C7_witness :
    (CircularFlower.generate (initState Variant.circularFlower) zeroRng).1.number_of_pellets = 5 ∨
    (CircularFlower.generate (initState Variant.circularFlower) zeroRng).1.number_of_pellets = 6 ∨
    (CircularFlower.generate (initState Variant.circularFlower) zeroRng).1.number_of_pellets = 7 :=
  (C7_pellet_count_forced (initState Variant.circularFlower) zeroRng
    (fun _ => ⟨le_rfl, zero_lt_one⟩)).1

/-- C8: for every `maxAge` in [0,1], after `Tree.generate` the number of
secondary branches is 1 or 2 (never 0, never more), and every branch's
rotation is `sign * acos(u)` with sign -1 or +1 and `u` drawn from
`uniform(0.4, 0.6)`, hence in [0.4, 0.6]. -/
theorem C8_tree_branch_generation (s : PlantState) (g : Rng) (m : ℝ)
    (hg : Rng.valid g) (hmax : s.maxAge = some m) (hm0 : 0 ≤ m) (hm1 : m ≤ 1) :
    ((Tree.generate s g).1.branches.length = 1 ∨
     (Tree.generate s g).1.branches.length = 2) ∧
    (∀ b, b ∈ (Tree.generate s g).1.branches →
      ∃ sg u, (sg = (-1 : ℝ) ∨ sg = 1) ∧ (0.4 : ℝ) ≤ u ∧ u ≤ 0.6 ∧
        b.2 = sg * Real.arccos u) := by
  have hvp : Rng.valid (Plant.generate s g).2 := Plant_generate_valid s hg
  have hac : (Plant.generate s g).1.age_coefficient = (m + 1) / 2 := by
    simp [Plant.generate, hmax]
  have hble : (1 : ℝ) ≤ 2 * (Plant.generate s g).1.age_coefficient := by
    rw [hac]
    linarith
  have hub := pyuniform_mem hvp hble
  have hu1 : (1 : ℝ) ≤ (pyuniform 1 (2 * (Plant.generate s g).1.age_coefficient)
      (Plant.generate s g).2).1 := hub.1
  have hu2 : (pyuniform 1 (2 * (Plant.generate s g).1.age_coefficient)
      (Plant.generate s g).2).1 ≤ 2 := by
    have h := hub.2
    rw [hac] at h
    linarith
  have hcnt := pyround_one_two hu1 hu2
  have hvu : Rng.valid (pyuniform 1 (2 * (Plant.generate s g).1.age_coefficient)
      (Plant.generate s g).2).2 := Rng.valid_tail hvp
  have hbr : (Tree.generate s g).1.branches
      = (genListAux (branchEntry (Plant.generate s g).1.deficit_coefficient
          (pyround ((pyuniform 1 (2 * (Plant.generate s g).1.age_coefficient)
            (Plant.generate s g).2).1)).toNat)
          (List.range (pyround ((pyuniform 1 (2 * (Plant.generate s g).1.age_coefficient)
            (Plant.generate s g).2).1)).toNat)
          ((pyuniform 1 (2 * (Plant.generate s g).1.age_coefficient)
            (Plant.generate s g).2).2)).1 := rfl
  constructor
  · rw [hbr, genListAux_length, List.length_range]
    rcases hcnt with h | h
    · rw [h]
      exact Or.inl rfl
    · rw [h]
      exact Or.inr rfl
  · intro b hb
    rw [hbr] at hb
    refine @genListAux_mem (ℝ × ℝ) _
      (fun b0 => ∃ sg u, (sg = (-1 : ℝ) ∨ sg = 1) ∧ (0.4 : ℝ) ≤ u ∧ u ≤ 0.6 ∧
        b0.2 = sg * Real.arccos u) ?_ _ _ hvu ?_ b hb
    · intro j g0 hg0
      exact branchEntry_valid hg0
    · intro j hj g' hg'
      exact branchEntry_prop hg' (fun h2 => List.mem_range.mp (h2 ▸ hj))

/-- Witness for C8: generating that tree from the all-zeros stream yields 1
or 2 branches. -/
theorem C8_witness :
    (Tree.generate treeMax zeroRng).1.branches.length = 1 ∨
    (Tree.generate treeMax zeroRng).1.branches.length = 2 :=
  (C8_tree_branch_generation treeMax zeroRng 1
    (fun _ => ⟨le_rfl, zero_lt_one⟩) rfl zero_le_one le_rfl).1

/-- Counterexample to C3 as stated: at age 1/2 the Flower leaf size
`leaf_size * smoothen_curve(age) ** 2 * coefficient` equals neither the
`smoothen_curve age`-scaled nor the `smoothen_curve (age²)`-scaled value —
the source squares the smoothed age, which is a third, different function of
age. -/
theorem C3_counterexample :
    ¬ (leaf_ls flowerHalf 7 1
        = leaf_size flowerHalf 7 * 1 * smoothen_curve flowerHalf.age ∨
       leaf_ls flowerHalf 7 1
        = leaf_size flowerHalf 7 * 1 * smoothen_curve (get_adjusted_age flowerHalf)) := by
  have hage : flowerHalf.age = 1 / 2 := rfl
  have hadj : get_adjusted_age flowerHalf = 1 / 4 := by
    unfold get_adjusted_age
    rw [hage]
    norm_num
  have hls : leaf_size flowerHalf 7 = 1 := by
    show (7 : ℝ) / 7 * 1 * 1 = 1
    norm_num
  have hll : leaf_ls flowerHalf 7 1 = 1 / 4 := by
    unfold leaf_ls
    rw [hls, hage, smoothen_curve_half]
    norm_num
  have hsqrt : (1 : ℝ) < Real.sqrt 2 := by
    nlinarith [Real.sq_sqrt (by norm_num : (0 : ℝ) ≤ 2), Real.sqrt_nonneg 2]
  rw [hll, hls, hage, hadj, smoothen_curve_half, smoothen_curve_quarter]
  push_neg
  constructor
  · norm_num
  · intro h
    linarith

/-- C3 amended: every age-dependent geometric dimension is scaled by
`smoothen_curve age`, by `smoothen_curve (age²)` (the slower-growing
sub-parts use the adjusted age), or — for the Flower leaf size and the
DoubleGreenTree second canopy width — by `smoothen_curve age ^ 2`, the
square of the smoothed age, which the original claim did not allow; raw
`age` never scales a dimension directly. -/
theorem C3_amended_smooth_scaling (s : PlantState)
    (width height coefficient sz hh : ℝ) :
    flower_stem_x s width = x_position s width * smoothen_curve s.age ∧
    flower_stem_y s height = y_position s height * smoothen_curve s.age ∧
    stem_pen_width s = s.stem_width * smoothen_curve s.age ∧
    leaf_ls s width coefficient
      = leaf_size s width * coefficient * smoothen_curve s.age ^ 2 ∧
    pellet_scaled s width = pellet_size s width * smoothen_curve s.age ∧
    trunk_half_width s width = base_width s width * smoothen_curve s.age ∧
    trunk_height s height = base_height s height * smoothen_curve s.age ∧
    branch_attach_y s height hh
      = base_height s (height * hh) * smoothen_curve s.age ∧
    branch_half_width s width hh
      = branch_width s width * (1 - hh) * smoothen_curve (s.age ^ 2) ∧
    branch_len s height hh
      = branch_height s height * (1 - hh) * smoothen_curve (s.age ^ 2) ∧
    fruit_radius s width height sz hh
      = ((width + height) / 2) * sz * (1 - hh) * s.age_coefficient
        * smoothen_curve (s.age ^ 2) ∧
    canopy_half_width s width = green_width s width * smoothen_curve s.age ∧
    canopy_height s height = green_height s height * smoothen_curve s.age ∧
    second_canopy_half_width s width
      = second_green_width s width * smoothen_curve s.age ^ 2 ∧
    second_canopy_height s height
      = second_green_height s height * smoothen_curve s.age := by
  refine ⟨rfl, rfl, rfl, ?_, rfl, rfl, rfl, ?_, ?_, ?_, ?_, rfl, rfl, rfl, rfl⟩
  · unfold leaf_ls
    ring
  · unfold branch_attach_y base_height
    ring
  · unfold branch_half_width get_adjusted_age
    ring
  · unfold branch_len get_adjusted_age
    ring
  · unfold fruit_radius get_adjusted_age
    ring
